import Mathlib

/-!
Verification of the booking core of the English-school Flask application
(`src/app.py`): the pricing calculator `calculate_price`, the booking
insert path of the `book` POST handler, the schema initialization
`init_db`, and the admin listing.  Python machine behaviour is embedded
shallowly: SQLite NULLable text columns become `Option String`, Python
`int` becomes `Int`, and the `AUTOINCREMENT` id counter is carried
explicitly in the store state.
-/

/-- Constant `GROUP_PRICE = 590` (rubles per hour), from `src/app.py` line 36. -/
def GROUP_PRICE : Int := 590

/-- Constant `INDIVIDUAL_PRICE = 790` (rubles per hour), from `src/app.py` line 37. -/
def INDIVIDUAL_PRICE : Int := 790

/-- The dictionary lookup `prices.get(plan, GROUP_PRICE)` where
`prices = {'group': GROUP_PRICE, 'individual': INDIVIDUAL_PRICE}`
(`src/app.py` lines 47-48).  The argument is an `Option String` because the
`book` handler passes `request.form.get('plan')`, which may be `None`. -/
def prices_get (plan : Option String) : Int :=
  if plan = some "group" then GROUP_PRICE
  else if plan = some "individual" then INDIVIDUAL_PRICE
  else GROUP_PRICE

/-- The function `calculate_price(plan, hours)` from `src/app.py` lines 45-48:
`prices.get(plan, GROUP_PRICE) * max(1, int(hours))`.  The `hours`
argument is already an integer at every call site, so `int(hours)` is the
identity here. -/
def calculate_price (plan : String) (hours : Int) : Int :=
  prices_get (some plan) * max 1 hours

/-- Variant of `calculate_price` as invoked from the `book` handler, where the plan
comes from `request.form.get('plan')` and may be `None`
(`src/app.py` line 402). -/
def calculate_price_form (plan : Option String) (hours : Int) : Int :=
  prices_get plan * max 1 hours

/-!  Python `int(string)` parsing, as used in `hours = int(request.form.get('hours') or 1)`
(`src/app.py` lines 398-401).  Python strips surrounding whitespace, accepts an
optional sign, and then ASCII decimal digits optionally grouped by single
underscores between digits; anything else raises `ValueError`. -/

/-- Checks the tail of a digit group: every underscore must be immediately
followed by a digit, the rest must be digits. -/
def pyDigitTail : List Char → Bool
  | [] => true
  | '_' :: c :: rest => c.isDigit && pyDigitTail rest
  | c :: rest => c.isDigit && pyDigitTail rest

/-- A valid unsigned Python integer literal body: nonempty, starts with a
digit, underscores only between digits. -/
def pyDigits : List Char → Bool
  | [] => false
  | c :: rest => c.isDigit && pyDigitTail rest

/-- Numeric value of a digit list, skipping underscore separators. -/
def pyDigitsVal (cs : List Char) : Nat :=
  cs.foldl (fun a c => if c.isDigit then a * 10 + (c.toNat - 48) else a) 0

/-- Python `int()` strips surrounding whitespace from its string argument. -/
def pyStrip (cs : List Char) : List Char :=
  ((cs.dropWhile Char.isWhitespace).reverse.dropWhile Char.isWhitespace).reverse

/-- Python `int(s)` for a string `s`: `some n` on success, `none` when
Python raises `ValueError`. -/
def pyIntOfString (s : String) : Option Int :=
  match pyStrip s.toList with
  | '+' :: rest => if pyDigits rest then some (pyDigitsVal rest : Int) else none
  | '-' :: rest => if pyDigits rest then some (-(pyDigitsVal rest : Int)) else none
  | l => if pyDigits l then some (pyDigitsVal l : Int) else none

/-- The statement `try: hours = int(request.form.get('hours') or 1) except ValueError: hours = 1`
(`src/app.py` lines 398-401).  A missing field (`None`) and the empty string
are falsy, so `or 1` yields `int(1) = 1`; a non-parseable string raises
`ValueError`, caught and replaced by `1`. -/
def parseHours (field : Option String) : Int :=
  match field with
  | none => 1
  | some s => if s = "" then 1 else (pyIntOfString s).getD 1

/-!  The booking store.  SQLite schema (`src/app.py` lines 81-93):
`bookings(id INTEGER PRIMARY KEY AUTOINCREMENT, name, email, phone, plan TEXT,
hours INTEGER, price INTEGER, notes TEXT, created_at TEXT)`.  All text
columns are nullable (`Option String`).  Rows are kept in insertion order;
`seq` is the `AUTOINCREMENT` counter (the largest id ever assigned, and
since no row is ever deleted, also the id of the newest row). -/

/-- One persisted row of the `bookings` table. -/
structure BookingRow where
  id : Nat
  name : Option String
  email : Option String
  phone : Option String
  plan : Option String
  hours : Int
  price : Int
  notes : Option String
  created_at : String
deriving DecidableEq, Repr

/-- The SQLite database state: created tables, the `AUTOINCREMENT`
counter of `bookings`, and the stored rows in insertion order. -/
structure DBState where
  tables : List String
  seq : Nat
  rows : List BookingRow
deriving DecidableEq, Repr

/-- A freshly created database file, before `init_db` runs. -/
def freshDB : DBState := ⟨[], 0, []⟩

/-- The function `init_db` (`src/app.py` lines 79-94): executes
`CREATE TABLE IF NOT EXISTS bookings (...)` and commits.  The table is
created only when absent; rows are untouched. -/
def init_db (db : DBState) : DBState :=
  if "bookings" ∈ db.tables then db
  else { db with tables := db.tables ++ ["bookings"] }

/-- The fields of a booking record before the store assigns the id and
timestamp (spec section 4.2, `insert(record_without_id_or_timestamp)`). -/
structure BookingInput where
  name : Option String
  email : Option String
  phone : Option String
  plan : Option String
  hours : Int
  price : Int
  notes : Option String
deriving DecidableEq, Repr

/-- The `INSERT INTO bookings (...)` of the `book` POST branch
(`src/app.py` lines 404-407): assigns the next `AUTOINCREMENT` id and the
given timestamp, and appends the row. -/
def insertBooking (db : DBState) (r : BookingInput) (now : String) : DBState :=
  { db with
    seq := db.seq + 1,
    rows := db.rows ++
      [⟨db.seq + 1, r.name, r.email, r.phone, r.plan, r.hours, r.price, r.notes, now⟩] }

/-- The raw form fields of a POST to `/book`, each as
`request.form.get(...)` returns them: `some s` when present, `none` when
absent. -/
structure BookForm where
  name : Option String
  email : Option String
  phone : Option String
  plan : Option String
  hours : Option String
  notes : Option String
deriving DecidableEq, Repr

/-- The record the `book` POST branch builds from the form
(`src/app.py` lines 394-403): fields are taken verbatim, `hours` is parsed
with the `int(... or 1)` / `except ValueError` recovery, and the price is
`calculate_price(plan, hours)`. -/
def recordOfForm (form : BookForm) : BookingInput :=
  let hours := parseHours form.hours
  { name := form.name, email := form.email, phone := form.phone, plan := form.plan,
    hours := hours, price := calculate_price_form form.plan hours, notes := form.notes }

/-- The whole insert path of the `book` handler on POST
(`src/app.py` lines 393-407): build the record from the form and insert it
with the current UTC timestamp. -/
def book_post (db : DBState) (form : BookForm) (now : String) : DBState :=
  insertBooking db (recordOfForm form) now

/-- Insertion of a row into a list sorted by id descending (helper for
the semantics of `ORDER BY id DESC`). -/
def insertDescById (r : BookingRow) : List BookingRow → List BookingRow
  | [] => [r]
  | x :: xs => if x.id ≤ r.id then r :: x :: xs else x :: insertDescById r xs

/-- Sorting by id descending: the meaning of `ORDER BY id DESC` in the
admin query (`src/app.py` line 426). -/
def sortDescById (l : List BookingRow) : List BookingRow :=
  l.foldr insertDescById []

/-- The query `SELECT id,name,email,phone,plan,hours,price,notes,created_at FROM
bookings ORDER BY id DESC` (`src/app.py` lines 426-432): all stored rows,
ordered by identifier descending. -/
def listAll (db : DBState) : List BookingRow :=
  sortDescById db.rows

/-- The `admin` handler (`src/app.py` lines 418-434): a demo password
gate, then the read-only listing.  Returns the (unchanged) database state
together with `some bookings` on success or `none` when the handler
aborts with 401. -/
def admin (db : DBState) (pw : Option String) : DBState × Option (List BookingRow) :=
  if pw = some "demo-password" then (db, some (listAll db)) else (db, none)

/-- Repeated inserts through the `book` POST path: one booking per
(record, timestamp) pair, in order. -/
def insertAll (db : DBState) (rs : List (BookingInput × String)) : DBState :=
  rs.foldl (fun d p => insertBooking d p.1 p.2) db

/-- The identifiers of the stored rows, in insertion order. -/
def rowIds (db : DBState) : List Nat :=
  db.rows.map (fun r => r.id)

/-- Well-formedness invariant of every reachable store state: no stored
row's id exceeds the `AUTOINCREMENT` counter. -/
def WF (db : DBState) : Prop :=
  ∀ r ∈ db.rows, r.id ≤ db.seq

instance (db : DBState) : Decidable (WF db) := by
  unfold WF; infer_instance

/-! ### Helper lemmas -/

/-- The `prices.get` lookup always yields a positive rate. -/
theorem prices_get_pos (p : Option String) : 0 < prices_get p := by
  unfold prices_get GROUP_PRICE INDIVIDUAL_PRICE
  split
  · norm_num
  · split <;> norm_num

/-- Appending one row and taking the last gives that row. -/
theorem getLast?_append_one {α : Type} (l : List α) (a : α) :
    (l ++ [a]).getLast? = some a := by
  simp

/-- The row the `book` POST branch persists, recovered from `getLast?`. -/
theorem book_post_getLast (db : DBState) (form : BookForm) (now : String) :
    (book_post db form now).rows.getLast? =
      some ⟨db.seq + 1, form.name, form.email, form.phone, form.plan,
            parseHours form.hours,
            calculate_price_form form.plan (parseHours form.hours),
            form.notes, now⟩ := by
  unfold book_post insertBooking recordOfForm
  exact getLast?_append_one _ _

/-- Function `insertDescById` produces a permutation of consing. -/
theorem insertDescById_perm (r : BookingRow) (l : List BookingRow) :
    (insertDescById r l).Perm (r :: l) := by
  induction l with
  | nil => simp [insertDescById]
  | cons x xs ih =>
    unfold insertDescById
    split
    · exact List.Perm.refl _
    · exact (ih.cons x).trans (List.Perm.swap r x xs)

/-- Function `sortDescById` permutes its input. -/
theorem sortDescById_perm (l : List BookingRow) : (sortDescById l).Perm l := by
  induction l with
  | nil => simp [sortDescById]
  | cons x xs ih =>
    have : sortDescById (x :: xs) = insertDescById x (sortDescById xs) := rfl
    rw [this]
    exact (insertDescById_perm x (sortDescById xs)).trans (ih.cons x)

/-- Unfolding `insertDescById` on a cons cell. -/
theorem insertDescById_cons (r x : BookingRow) (xs : List BookingRow) :
    insertDescById r (x :: xs) =
      if x.id ≤ r.id then r :: x :: xs else x :: insertDescById r xs := rfl

/-- `insertDescById` preserves descending order. -/
theorem insertDescById_pairwise (r : BookingRow) (l : List BookingRow)
    (h : List.Pairwise (fun a b => b.id ≤ a.id) l) :
    List.Pairwise (fun a b => b.id ≤ a.id) (insertDescById r l) := by
  induction l with
  | nil => simp [insertDescById]
  | cons x xs ih =>
    rcases List.pairwise_cons.mp h with ⟨hx, hxs⟩
    rw [insertDescById_cons]
    split
    · rename_i hle
      refine List.pairwise_cons.mpr ⟨fun b hb => ?_, h⟩
      rcases List.mem_cons.mp hb with hb | hb
      · subst hb; exact hle
      · exact le_trans (hx b hb) hle
    · rename_i hgt
      refine List.pairwise_cons.mpr ⟨fun b hb => ?_, ih hxs⟩
      rcases List.mem_cons.mp ((insertDescById_perm r xs).mem_iff.mp hb) with hb | hb
      · subst hb; exact le_of_not_le hgt
      · exact hx b hb

/-- Function `sortDescById` sorts by id descending. -/
theorem sortDescById_pairwise (l : List BookingRow) :
    List.Pairwise (fun a b => b.id ≤ a.id) (sortDescById l) := by
  induction l with
  | nil => simp [sortDescById]
  | cons x xs ih => exact insertDescById_pairwise x (sortDescById xs) ih

/-- Folding `insertDescById` over rows all strictly below `n` keeps `n`
first. -/
theorem foldr_insertDescById_lt (n : BookingRow) (l : List BookingRow)
    (h : ∀ x ∈ l, x.id < n.id) :
    l.foldr insertDescById [n] = n :: l.foldr insertDescById [] := by
  induction l with
  | nil => rfl
  | cons x xs ih =>
    have hx : x.id < n.id := h x (List.mem_cons_self x xs)
    have ihx := ih (fun y hy => h y (List.mem_cons_of_mem x hy))
    calc (x :: xs).foldr insertDescById [n]
        = insertDescById x (xs.foldr insertDescById [n]) := rfl
      _ = insertDescById x (n :: xs.foldr insertDescById []) := by rw [ihx]
      _ = n :: insertDescById x (xs.foldr insertDescById []) := by
          rw [insertDescById_cons, if_neg (by omega)]
      _ = n :: (x :: xs).foldr insertDescById [] := rfl

/-- Sorting after appending a row with a strictly maximal id puts it
first. -/
theorem sortDescById_append_max (l : List BookingRow) (n : BookingRow)
    (h : ∀ x ∈ l, x.id < n.id) :
    sortDescById (l ++ [n]) = n :: sortDescById l := by
  unfold sortDescById
  rw [List.foldr_append]
  exact foldr_insertDescById_lt n l h

/-- Identifiers and counter after a batch of inserts: the new ids are the
consecutive block starting right after the old counter. -/
theorem insertAll_ids (rs : List (BookingInput × String)) (db : DBState) :
    rowIds (insertAll db rs) = rowIds db ++ List.range' (db.seq + 1) rs.length ∧
    (insertAll db rs).seq = db.seq + rs.length := by
  induction rs generalizing db with
  | nil => simp [insertAll, rowIds]
  | cons p rs ih =>
    have step : insertAll db (p :: rs) = insertAll (insertBooking db p.1 p.2) rs := rfl
    rw [step]
    rcases ih (insertBooking db p.1 p.2) with ⟨h1, h2⟩
    have hrow : rowIds (insertBooking db p.1 p.2) = rowIds db ++ [db.seq + 1] := by
      simp [insertBooking, rowIds]
    have hseq : (insertBooking db p.1 p.2).seq = db.seq + 1 := rfl
    constructor
    · rw [h1, hrow, hseq, List.append_assoc]
      congr 1
    · rw [h2, hseq]
      simp only [List.length_cons]
      omega

/-! ### Claims about the pricing calculator -/

/-- C1: for every recognized plan and every `H ≥ 1`, `calculate_price`
returns the plan's rate times `H` (group = 590, individual = 790); in
particular `calculate_price('group', 8) = 4720` and
`calculate_price('individual', 16) = 12640`. -/
theorem calculate_price_recognized (H : Int) (hH : 1 ≤ H) :
    calculate_price "group" H = 590 * H ∧
    calculate_price "individual" H = 790 * H ∧
    calculate_price "group" 8 = 4720 ∧
    calculate_price "individual" 16 = 12640 := by
  have hmax : max 1 H = H := max_eq_right hH
  refine ⟨?_, ?_, by decide, by decide⟩ <;>
    simp [calculate_price, prices_get, GROUP_PRICE, INDIVIDUAL_PRICE, hmax]

/-- Witness for C1 at `H = 8`. -/
theorem calculate_price_recognized_witness :
    (1:Int) ≤ 8 ∧
    (calculate_price "group" 8 = 590 * 8 ∧
     calculate_price "individual" 8 = 790 * 8 ∧
     calculate_price "group" 8 = 4720 ∧
     calculate_price "individual" 16 = 12640) :=
  ⟨by decide, calculate_price_recognized 8 (by decide)⟩

/-- C4: for every plan identifier outside {group, individual} and every
`H ≥ 1`, `calculate_price` falls back to the group rate: the result is
`590 * H`. -/
theorem calculate_price_unrecognized (U : String) (H : Int)
    (hU1 : U ≠ "group") (hU2 : U ≠ "individual") (hH : 1 ≤ H) :
    calculate_price U H = 590 * H := by
  have hmax : max 1 H = H := max_eq_right hH
  simp [calculate_price, prices_get, GROUP_PRICE, hU1, hU2, hmax]

/-- Witness for C4 at `U = "premium"`, `H = 3`. -/
theorem calculate_price_unrecognized_witness :
    ("premium" ≠ "group" ∧ "premium" ≠ "individual" ∧ (1:Int) ≤ 3) ∧
    calculate_price "premium" 3 = 590 * 3 :=
  ⟨⟨by decide, by decide, by decide⟩,
   calculate_price_unrecognized "premium" 3 (by decide) (by decide) (by decide)⟩

/-- C5: `calculate_price` is total over its coerced domain and always
returns a non-negative price (in fact a positive one, since both rates
are positive and the hours factor is clamped to at least 1). -/
theorem calculate_price_nonneg (plan : String) (H : Int) :
    0 ≤ calculate_price plan H :=
  le_of_lt (mul_pos (prices_get_pos (some plan))
    (lt_of_lt_of_le zero_lt_one (le_max_left 1 H)))

/-- C3: non-positive hours are clamped to 1 by `calculate_price`, and a
booking submission whose `hours` field is absent, empty, or not parseable
as an integer still persists a row, with hours = 1 and the price computed
at one hour. -/
theorem invalid_hours_recovered :
    (∀ (plan : String) (H : Int), H ≤ 0 →
      calculate_price plan H = prices_get (some plan) * 1) ∧
    (∀ (db : DBState) (form : BookForm) (now : String),
      (form.hours = none ∨ form.hours = some "" ∨
        (∃ s, form.hours = some s ∧ s ≠ "" ∧ pyIntOfString s = none)) →
      (book_post db form now).rows.getLast? =
        some ⟨db.seq + 1, form.name, form.email, form.phone, form.plan, 1,
              prices_get form.plan * 1, form.notes, now⟩) := by
  constructor
  · intro plan H hH
    have hmax : max 1 H = 1 := max_eq_left (by omega)
    simp [calculate_price, hmax]
  · intro db form now hbad
    have hp : parseHours form.hours = 1 := by
      rcases hbad with h | h | ⟨s, hs, hne, hparse⟩
      · rw [h]; rfl
      · rw [h]; simp [parseHours]
      · rw [hs]; simp [parseHours, hne, hparse]
    rw [book_post_getLast, hp]
    have : calculate_price_form form.plan 1 = prices_get form.plan * 1 := by
      simp [calculate_price_form]
    rw [this]

/-- Witness for C3: a form with a missing hours field and an unparseable
one. -/
theorem invalid_hours_recovered_witness :
    calculate_price "group" (-3) = prices_get (some "group") * 1 ∧
    (book_post freshDB ⟨some "A", some "a@x.com", none, some "group", none, none⟩
        "2024-01-01T00:00:00").rows.getLast? =
      some ⟨1, some "A", some "a@x.com", none, some "group", 1,
            prices_get (some "group") * 1, none, "2024-01-01T00:00:00"⟩ :=
  ⟨invalid_hours_recovered.1 "group" (-3) (by decide),
   invalid_hours_recovered.2 freshDB
     ⟨some "A", some "a@x.com", none, some "group", none, none⟩
     "2024-01-01T00:00:00" (Or.inl rfl)⟩

/-! ### Claims about the booking store -/

/-- A direct POST whose hours field is the string `"0"`: `int("0") = 0`
parses, so the handler stores `hours = 0` while the price is clamped to
one hour. -/
def zeroHoursForm : BookForm :=
  ⟨some "Anna", some "a@x.com", none, some "group", some "0", none⟩

/-- The row `zeroHoursForm` persists. -/
def zeroHoursRow : BookingRow :=
  ⟨1, some "Anna", some "a@x.com", none, some "group", 0, 590, none,
   "2024-01-01T00:00:00"⟩

/-- C2 counterexample: submitting `hours = "0"` persists a row whose
hours field is 0 (< 1) and whose price, 590, is not the rate times the
persisted hours, refuting the stored-record invariant as claimed. -/
theorem booking_invariant_counterexample :
    (book_post freshDB zeroHoursForm "2024-01-01T00:00:00").rows.getLast? =
      some zeroHoursRow ∧
    zeroHoursRow.hours = 0 ∧ zeroHoursRow.price = 590 ∧
    ¬ (1 ≤ zeroHoursRow.hours ∧
       zeroHoursRow.price = prices_get zeroHoursRow.plan * zeroHoursRow.hours) := by
  refine ⟨by decide, by decide, by decide, ?_⟩
  decide

/-- C2 amended: every row persisted by the `book` POST path satisfies
`price = unit_rate(plan) * max(1, hours)`; when the persisted hours are
at least 1, the invariant reads `price = unit_rate(plan) * hours`, but the
persisted hours themselves may be any integer the form supplied. -/
theorem booking_price_invariant (db : DBState) (form : BookForm) (now : String)
    (r : BookingRow)
    (h : (book_post db form now).rows.getLast? = some r) :
    r.price = prices_get r.plan * max 1 r.hours ∧
    (1 ≤ r.hours → r.price = prices_get r.plan * r.hours) := by
  rw [book_post_getLast] at h
  rcases Option.some_inj.mp h.symm with rfl
  constructor
  · rfl
  · intro h1
    have hmax : max 1 (parseHours form.hours) = parseHours form.hours :=
      max_eq_right h1
    simp [calculate_price_form, hmax]

/-- Witness for the amended C2 at the `hours = "0"` submission. -/
theorem booking_price_invariant_witness :
    zeroHoursRow.price = prices_get zeroHoursRow.plan * max 1 zeroHoursRow.hours :=
  (booking_price_invariant freshDB zeroHoursForm "2024-01-01T00:00:00"
    zeroHoursRow (by decide)).1

/-- C6: inserting a record into a well-formed store and then listing
yields the new row first, equal to the inserted record in name, email,
phone, plan, hours, price and notes, and differing only in the freshly
assigned identifier and the timestamp. -/
theorem insert_list_round_trip (db : DBState) (R : BookingInput) (now : String)
    (hwf : WF db) :
    (listAll (insertBooking db R now)).head? =
      some ⟨db.seq + 1, R.name, R.email, R.phone, R.plan, R.hours, R.price,
            R.notes, now⟩ := by
  unfold listAll insertBooking
  rw [sortDescById_append_max]
  · rfl
  · intro x hx
    exact Nat.lt_succ_of_le (hwf x hx)

/-- A one-row well-formed store used by witnesses. -/
def oneRowDB : DBState :=
  ⟨["bookings"], 1,
   [⟨1, some "B", some "b@x.com", none, some "individual", 2, 1580, none, "t0"⟩]⟩

/-- Witness for C6 on a concrete one-row store. -/
theorem insert_list_round_trip_witness :
    WF oneRowDB ∧
    (listAll (insertBooking oneRowDB
        ⟨some "C", some "c@x.com", none, some "group", 3, 1770, none⟩ "t1")).head? =
      some ⟨2, some "C", some "c@x.com", none, some "group", 3, 1770, none, "t1"⟩ :=
  ⟨by decide,
   insert_list_round_trip oneRowDB
     ⟨some "C", some "c@x.com", none, some "group", 3, 1770, none⟩ "t1" (by decide)⟩

/-- C7: within one store lifetime (starting from a fresh store), inserting
N records assigns exactly the identifiers 1, 2, ..., N: unique, strictly
increasing in insertion order, with no gaps and no reuse. -/
theorem monotonic_identifiers (rs : List (BookingInput × String)) :
    rowIds (insertAll freshDB rs) = List.range' 1 rs.length ∧
    List.Pairwise (· < ·) (rowIds (insertAll freshDB rs)) ∧
    (rowIds (insertAll freshDB rs)).Nodup ∧
    (rowIds (insertAll freshDB rs)).length = rs.length := by
  have h := (insertAll_ids rs freshDB).1
  have hfresh : rowIds freshDB = [] := rfl
  rw [hfresh] at h
  simp only [List.nil_append] at h
  have h1 : rowIds (insertAll freshDB rs) = List.range' 1 rs.length := h
  refine ⟨h1, ?_, ?_, ?_⟩
  · rw [h1]; exact List.pairwise_lt_range' 1 rs.length
  · rw [h1]; exact List.nodup_range' 1 rs.length
  · rw [h1]; simp

/-- C8: the admin listing is read-only (the store state is returned
unchanged, password accepted or not), and `listAll` returns exactly the
stored rows (a permutation of them) ordered by identifier descending. -/
theorem listAll_read_only (db : DBState) (pw : Option String) :
    (admin db pw).1 = db ∧
    (listAll db).Perm db.rows ∧
    List.Pairwise (fun a b => b.id ≤ a.id) (listAll db) := by
  refine ⟨?_, sortDescById_perm db.rows, sortDescById_pairwise db.rows⟩
  unfold admin
  split <;> rfl

/-- C9: `init_db` is idempotent: it creates the `bookings` table only when
absent, never duplicates it, and never touches stored rows or the id
counter. -/
theorem init_db_idempotent (db : DBState) :
    init_db (init_db db) = init_db db ∧
    (init_db db).rows = db.rows ∧
    (init_db db).seq = db.seq ∧
    "bookings" ∈ (init_db db).tables ∧
    (db.tables.count "bookings" ≤ 1 →
      (init_db db).tables.count "bookings" ≤ 1) := by
  unfold init_db
  by_cases h : "bookings" ∈ db.tables
  · simp [h]
  · have hz : db.tables.count "bookings" = 0 := List.count_eq_zero.mpr h
    simp [h, List.count_append, hz]

/-- Witness for C9 at the fresh store. -/
theorem init_db_idempotent_witness :
    init_db (init_db freshDB) = init_db freshDB ∧
    (init_db freshDB).rows = freshDB.rows ∧
    (init_db freshDB).seq = freshDB.seq ∧
    "bookings" ∈ (init_db freshDB).tables ∧
    (init_db freshDB).tables.count "bookings" ≤ 1 := by
  have h := init_db_idempotent freshDB
  exact ⟨h.1, h.2.1, h.2.2.1, h.2.2.2.1, h.2.2.2.2 (by decide)⟩

/-- C10: the plan string is persisted verbatim, with no normalization or
validation; a row whose plan is outside {group, individual} is stored
as-is while its price was computed at the group rate. -/
theorem plan_stored_verbatim (db : DBState) (form : BookForm) (now : String)
    (r : BookingRow)
    (h : (book_post db form now).rows.getLast? = some r) :
    r.plan = form.plan ∧
    (∀ s, form.plan = some s → s ≠ "group" → s ≠ "individual" →
      r.price = GROUP_PRICE * max 1 r.hours) := by
  rw [book_post_getLast] at h
  rcases Option.some_inj.mp h.symm with rfl
  refine ⟨rfl, ?_⟩
  intro s hs h1 h2
  simp [calculate_price_form, prices_get, hs, h1, h2]

/-- A direct POST with an unrecognized plan identifier. -/
def vipForm : BookForm :=
  ⟨some "D", some "d@x.com", none, some "vip", some "2", none⟩

/-- The row `vipForm` persists: plan `"vip"` verbatim, price at the group
rate. -/
def vipRow : BookingRow :=
  ⟨1, some "D", some "d@x.com", none, some "vip", 2, 1180, none, "t2"⟩

/-- Witness for C10 at an unrecognized plan `"vip"`. -/
theorem plan_stored_verbatim_witness :
    vipRow.plan = some "vip" ∧ vipRow.price = GROUP_PRICE * max 1 vipRow.hours :=
  ⟨(plan_stored_verbatim freshDB vipForm "t2" vipRow (by decide)).1,
   (plan_stored_verbatim freshDB vipForm "t2" vipRow (by decide)).2
     "vip" rfl (by decide) (by decide)⟩
